import Mathlib

/-!
Verification of the JIT-defense critical-fee solver (`src/client/solver.py`).

The numeric core of the repository is `ProductionHJISolver.solve_phi_crit`
(an outer 20-iteration bisection over the fee rate, with an inner bounded
one-dimensional maximization of the attacker's profit) and
`ProductionHJISolver.sync_to_chain` (the per-tier aggregation which turns
each critical rate into a published `FeeTier` record).

The embedding works over `ℚ`.  The inner call to
`scipy.optimize.minimize_scalar(..., method := bounded)` is a third-party
numeric routine, not code of this repository; it is abstracted as a
parameter of type `MinimizeScalar` (objective, lower bound, upper bound ↦
reported minimum value, the code consumes only `res.fun`).  Theorems that
depend on the inner maximizer constrain it with an exactness hypothesis
(`IsLeast` of the objective's value set), which is what the spec's
"bounded one-dimensional maximizer" contract asserts.
-/

/-- The constant `1e18` from `solver.py` line 35: wei per value unit. -/
def WEI_PER_UNIT : ℚ := 1e18

/-- `alpha = (L_active * ratio_bps) / 10000` (`solver.py` line 34): the
nominal attack size for a ratio tier, as a fraction of active liquidity. -/
def alpha (L_active ratio_bps : ℚ) : ℚ := L_active * ratio_bps / 10000

/-- `c_gas_eth = (gas_price * jit_gas_usage) / 1e18` (`solver.py` line 35):
fixed gas cost of one attack, in pool value units. -/
def c_gas_eth (gas_price jit_gas_usage : ℚ) : ℚ :=
  gas_price * jit_gas_usage / WEI_PER_UNIT

/-- The attacker profit formula from the lambda on `solver.py` line 38:
`phi * (a / (L_active + a)) * v_swap - (c_gas_eth + 0.5 * kappa * a**2)`. -/
def profit (L_active v_swap c_gas kappa phi a : ℚ) : ℚ :=
  phi * (a / (L_active + a)) * v_swap - (c_gas + 0.5 * kappa * a ^ 2)

/-- Abstraction of `scipy.optimize.minimize_scalar(..., method := bounded)`:
given the objective and the two bounds, return the minimum value found
(the code only reads `res.fun`).  scipy is an external library, so the
routine itself is a parameter of the embedding. -/
def MinimizeScalar : Type := (ℚ → ℚ) → ℚ → ℚ → ℚ

/-- `max_profit_for_phi` (`solver.py` lines 36–42): minimize the negated
profit over `bounds = (alpha * 0.8, alpha * 1.2)` and negate the reported
minimum value. -/
def max_profit_for_phi (ms : MinimizeScalar) (L_active v_swap c_gas kappa alp phi : ℚ) : ℚ :=
  -(ms (fun a => -(profit L_active v_swap c_gas kappa phi a)) (alp * 0.8) (alp * 1.2))

/-- One iteration of the outer bisection (`solver.py` lines 45–47):
`mid = (low + high) / 2`; if `max_profit_for_phi(mid) > 0` then `low = mid`
else `high = mid`.  The state is the pair `(low, high)`. -/
def bisectStep (F : ℚ → ℚ) (s : ℚ × ℚ) : ℚ × ℚ :=
  if 0 < F ((s.1 + s.2) / 2) then ((s.1 + s.2) / 2, s.2) else (s.1, (s.1 + s.2) / 2)

/-- The outer bisection loop (`solver.py` lines 43–48): start from
`low, high = 0.0005, 0.1`, run 20 iterations, return `high`. -/
def bisect (F : ℚ → ℚ) : ℚ := ((bisectStep F)^[20] (0.0005, 0.1)).2

/-- `solve_phi_crit` (`solver.py` lines 32–48): assemble `alpha` and
`c_gas_eth`, build the inner maximizer's value function and bisect. -/
def solve_phi_crit (ms : MinimizeScalar)
    (ratio_bps L_active gas_price v_swap jit_gas_usage kappa : ℚ) : ℚ :=
  bisect (max_profit_for_phi ms L_active v_swap
    (c_gas_eth gas_price jit_gas_usage) kappa (alpha L_active ratio_bps))

/-- Python `int()` applied to a number: truncation toward zero.  Used by
`sync_to_chain` on line 59: `int(phi * 1_000_000)`. -/
def pyInt (q : ℚ) : ℤ := if q < 0 then ⌈q⌉ else ⌊q⌋

/-- One published fee tier record (`solver.py` lines 57–60 and the
`JITDefenseHook.FeeTier` ABI component). -/
structure FeeTier where
  thresholdRatioBps : ℚ
  feePips : ℤ

/-- The record built for one ratio tier inside the loop of `sync_to_chain`
(`solver.py` lines 55–60). -/
def tier_record (ms : MinimizeScalar)
    (L_active gas_price v_swap jit_gas_usage kappa r : ℚ) : FeeTier :=
  { thresholdRatioBps := r
    feePips := pyInt (solve_phi_crit ms r L_active gas_price v_swap jit_gas_usage kappa * 1000000) }

/-- The pure core of `sync_to_chain` (`solver.py` lines 50–60): if the
active liquidity is zero the cycle is skipped (`none`, no records, no
publication); otherwise one record per configured ratio tier, in order.
Transaction building and submission (lines 62–71) are external I/O and are
represented by the returned payload. -/
def sync_to_chain (ms : MinimizeScalar)
    (L_active gas_price v_swap jit_gas_usage kappa : ℚ) (ratio_tiers : List ℚ) :
    Option (List FeeTier) :=
  if L_active = 0 then none
  else some (ratio_tiers.map (tier_record ms L_active gas_price v_swap jit_gas_usage kappa))

/-- The set of profit values attainable in the attack-size window of one
tier, with the window and formula as the code builds them (used to state
exactness of the inner maximizer). -/
def profitValues (L_active v_swap c_gas kappa ratio_bps phi : ℚ) : Set ℚ :=
  {y | ∃ a, alpha L_active ratio_bps * 0.8 ≤ a ∧ a ≤ alpha L_active ratio_bps * 1.2 ∧
       y = profit L_active v_swap c_gas kappa phi a}

/-- The spec's statement of the inner optimization, written from the spec's
words: profit `phi * (a / (activeLiquidity + a)) * nominalSwapVolume -
(gasCostInValueUnits + 0.5 * kappa * a^2)` with
`gasCostInValueUnits = gasPrice * gasUsagePerAttack / 1e18`, maximized over
`a ∈ [0.8 * alpha, 1.2 * alpha]` where `alpha = activeLiquidity * ratioBps
/ 10000`.  This is the spec side of the refinement checked by claim C3. -/
def specProfitValues (activeLiquidity nominalSwapVolume gasPrice gasUsagePerAttack
    kappa ratioBps phi : ℚ) : Set ℚ :=
  {y | ∃ a, 0.8 * (activeLiquidity * ratioBps / 10000) ≤ a ∧
       a ≤ 1.2 * (activeLiquidity * ratioBps / 10000) ∧
       y = phi * (a / (activeLiquidity + a)) * nominalSwapVolume -
           (gasPrice * gasUsagePerAttack / 1e18 + 0.5 * kappa * a ^ 2)}

/-- The outer search as the spec describes it, written from the spec's
words: a recursion on the iteration count; at each step `mid = (low +
high) / 2`, `low = mid` when `maxProfit(mid) > 0`, else `high = mid`; the
final value of `high` is returned.  This is the spec side of the
refinement checked by claim C2. -/
def bisectSpec (F : ℚ → ℚ) : ℕ → ℚ → ℚ → ℚ
  | 0, _, high => high
  | Nat.succ n, low, high =>
      if 0 < F ((low + high) / 2) then bisectSpec F n ((low + high) / 2) high
      else bisectSpec F n low ((low + high) / 2)

/-- `bisectStep` instrumented with a counter of executed iterations. -/
def bisectStepCount (F : ℚ → ℚ) (s : (ℚ × ℚ) × ℕ) : (ℚ × ℚ) × ℕ :=
  (bisectStep F s.1, s.2 + 1)

/-- The bisection loop with its iteration counter made explicit. -/
def bisectInstrumented (F : ℚ → ℚ) : (ℚ × ℚ) × ℕ :=
  (bisectStepCount F)^[20] ((0.0005, 0.1), 0)

/-- A concrete exact inner maximizer used in witnesses: report the
objective's value at the upper bound (exact whenever the objective is
non-increasing on the window). -/
def msEval : MinimizeScalar := fun g _ ub => g ub

/-- A concrete per-tier max-profit model used to test the monotonicity
claim C8: the smaller tier is profitable at every fee rate, the larger
tier at none.  Both fee-rate functions are constant, hence antitone. -/
def cexModel (r : ℚ) : ℚ → ℚ := fun _ => if r ≤ 10 then 1 else -1

/- ------------------------------------------------------------------ -/
/- Helper lemmas about the bisection loop.                             -/
/- ------------------------------------------------------------------ -/

/-- One bisection step keeps the state inside `[1/2000, 1/10]` and keeps
`low < high`. -/
lemma bisectStep_bounds (F : ℚ → ℚ) (s : ℚ × ℚ)
    (h : 1/2000 ≤ s.1 ∧ s.1 < s.2 ∧ s.2 ≤ 1/10) :
    1/2000 ≤ (bisectStep F s).1 ∧ (bisectStep F s).1 < (bisectStep F s).2 ∧
      (bisectStep F s).2 ≤ 1/10 := by
  obtain ⟨h1, h2, h3⟩ := h
  unfold bisectStep
  by_cases hc : 0 < F ((s.1 + s.2) / 2)
  · rw [if_pos hc]
    exact ⟨by linarith, by dsimp only; linarith, by dsimp only; linarith⟩
  · rw [if_neg hc]
    exact ⟨by dsimp only; linarith, by dsimp only; linarith, by dsimp only; linarith⟩

/-- After any number of bisection iterations from the initial state,
`1/2000 ≤ low < high ≤ 1/10`. -/
lemma bisect_iterate_bounds (F : ℚ → ℚ) (n : ℕ) :
    1/2000 ≤ ((bisectStep F)^[n] (0.0005, 0.1)).1 ∧
    ((bisectStep F)^[n] (0.0005, 0.1)).1 < ((bisectStep F)^[n] (0.0005, 0.1)).2 ∧
    ((bisectStep F)^[n] (0.0005, 0.1)).2 ≤ 1/10 := by
  induction n with
  | zero => norm_num
  | succ n ih =>
      rw [Function.iterate_succ_apply']
      exact bisectStep_bounds F _ ih

/-- The iterated step agrees with the spec's recursive formulation. -/
lemma bisect_iterate_eq_bisectSpec (F : ℚ → ℚ) (n : ℕ) :
    ∀ low high, ((bisectStep F)^[n] (low, high)).2 = bisectSpec F n low high := by
  induction n with
  | zero => intro low high; rfl
  | succ n ih =>
      intro low high
      rw [Function.iterate_succ_apply, bisectSpec]
      by_cases hc : 0 < F ((low + high) / 2)
      · have hstep : bisectStep F (low, high) = ((low + high) / 2, high) := by
          unfold bisectStep
          rw [if_pos hc]
        rw [hstep, if_pos hc, ih]
      · have hstep : bisectStep F (low, high) = (low, (low + high) / 2) := by
          unfold bisectStep
          rw [if_neg hc]
        rw [hstep, if_neg hc, ih]

/-- If the profit function is positive at and above the first midpoint
`201/4000`, every iteration moves `low` and the returned `high` is the
initial upper bound. -/
lemma bisect_iterate_high (F : ℚ → ℚ) (hF : ∀ x, 201/4000 ≤ x → 0 < F x) :
    ∀ (n : ℕ) (low high : ℚ), 201/4000 ≤ low → low ≤ high →
      ((bisectStep F)^[n] (low, high)).2 = high := by
  intro n
  induction n with
  | zero => intro low high _ _; rfl
  | succ n ih =>
      intro low high hl hlh
      rw [Function.iterate_succ_apply]
      have hmid : 201/4000 ≤ (low + high) / 2 := by linarith
      have hstep : bisectStep F (low, high) = ((low + high) / 2, high) := by
        unfold bisectStep
        rw [if_pos (hF _ hmid)]
      rw [hstep]
      exact ih _ _ hmid (by linarith)

/-- If the profit function is positive at the first midpoint and its
positivity is upward closed, the bisection returns `0.1`. -/
lemma bisect_all_up (F : ℚ → ℚ) (hF : ∀ x, 201/4000 ≤ x → 0 < F x) :
    bisect F = 1/10 := by
  unfold bisect
  rw [show (20 : ℕ) = 19 + 1 from rfl, Function.iterate_succ_apply]
  have hstep : bisectStep F (0.0005, 0.1) = (201/4000, 0.1) := by
    unfold bisectStep
    rw [show ((0.0005 : ℚ) + 0.1) / 2 = 201/4000 by norm_num,
        if_pos (hF _ le_rfl)]
  rw [hstep, bisect_iterate_high F hF 19 _ _ le_rfl (by norm_num)]
  norm_num

/-- If the profit function is non-positive on `(0, 201/4000]`, every
iteration moves `high`, halving the interval toward the lower bound. -/
lemma bisect_iterate_low (F : ℚ → ℚ)
    (hF : ∀ x, 0 < x → x ≤ 201/4000 → ¬ 0 < F x) :
    ∀ n : ℕ, (bisectStep F)^[n + 1] (0.0005, 0.1) =
      (0.0005, 1/2000 + (199/2000) / 2 ^ (n + 1)) := by
  intro n
  induction n with
  | zero =>
      rw [Function.iterate_one]
      unfold bisectStep
      rw [show (((0.0005 : ℚ), (0.1 : ℚ)).1 + ((0.0005 : ℚ), (0.1 : ℚ)).2) / 2
            = 201/4000 by norm_num,
          if_neg (hF _ (by norm_num) le_rfl)]
      norm_num
  | succ n ih =>
      rw [Function.iterate_succ_apply', ih]
      unfold bisectStep
      have hmid : ((0.0005 : ℚ) + (1/2000 + (199/2000) / 2 ^ (n + 1))) / 2
          = 1/2000 + (199/2000) / 2 ^ (n + 2) := by
        rw [show (n + 2) = (n + 1) + 1 from rfl, pow_succ]
        norm_num
        ring
      have hposmid : 0 < (1 : ℚ)/2000 + (199/2000) / 2 ^ (n + 2) := by positivity
      have hsmall : ((199 : ℚ)/2000) / 2 ^ (n + 2) ≤ (199/2000) / 2 := by
        apply div_le_div_of_nonneg_left (by norm_num) (by norm_num)
        calc (2 : ℚ) = 2 ^ 1 := (pow_one 2).symm
        _ ≤ 2 ^ (n + 2) := by
            apply pow_le_pow_right₀ (by norm_num)
            omega
      have hle : (1 : ℚ)/2000 + (199/2000) / 2 ^ (n + 2) ≤ 201/4000 := by linarith
      dsimp only
      rw [hmid, if_neg (hF _ hposmid hle)]

/-- If the profit function is non-positive at the first midpoint and this
is downward closed, the bisection returns the lower limit value. -/
lemma bisect_all_down (F : ℚ → ℚ)
    (hF : ∀ x, 0 < x → x ≤ 201/4000 → ¬ 0 < F x) :
    bisect F = 1048775/2097152000 := by
  unfold bisect
  rw [show (20 : ℕ) = 19 + 1 from rfl, bisect_iterate_low F hF 19]
  norm_num

/-- For a profit function monotone non-decreasing on positive fee rates,
the bisection has only two possible outcomes: the upper bound `0.1`, or
the lower limit `0.0005 + 0.0995 / 2 ^ 20`. -/
lemma bisect_mono_outcomes (F : ℚ → ℚ)
    (hmono : ∀ x y, 0 < x → x ≤ y → F x ≤ F y) :
    bisect F = 1/10 ∨ bisect F = 1048775/2097152000 := by
  by_cases h : 0 < F (201/4000)
  · left
    exact bisect_all_up F (fun x hx => lt_of_lt_of_le h (hmono _ _ (by norm_num) hx))
  · right
    refine bisect_all_down F (fun x hx hx2 hpos => h ?_)
    exact lt_of_lt_of_le hpos (hmono x (201/4000) hx hx2)

/-- On both reachable bisection outcomes, Python truncation of
`phi * 1_000_000` agrees with exact rounding. -/
lemma pyInt_round_bisect (F : ℚ → ℚ)
    (hmono : ∀ x y, 0 < x → x ≤ y → F x ≤ F y) :
    pyInt (bisect F * 1000000) = round (bisect F * 1000000) := by
  rcases bisect_mono_outcomes F hmono with h | h <;> rw [h] <;>
    norm_num [pyInt, round_eq, Int.floor_eq_iff]

/-- Exactness of the inner maximizer at every positive fee rate makes the
tier's max-profit function monotone non-decreasing on positive rates: the
fee rate multiplies the non-negative captured volume
`(a / (L + a)) * v_swap`. -/
lemma max_profit_mono (ms : MinimizeScalar) (L_active v_swap c_gas kappa r : ℚ)
    (hL : 0 < L_active) (hr : 0 < r) (hv : 0 < v_swap)
    (hexact : ∀ phi, 0 < phi →
      IsGreatest (profitValues L_active v_swap c_gas kappa r phi)
        (max_profit_for_phi ms L_active v_swap c_gas kappa (alpha L_active r) phi)) :
    ∀ x y, 0 < x → x ≤ y →
      max_profit_for_phi ms L_active v_swap c_gas kappa (alpha L_active r) x ≤
      max_profit_for_phi ms L_active v_swap c_gas kappa (alpha L_active r) y := by
  intro x y hx hxy
  obtain ⟨⟨a, ha1, ha2, hEq⟩, -⟩ := hexact x hx
  obtain ⟨-, hub⟩ := hexact y (lt_of_lt_of_le hx hxy)
  have hmem : profit L_active v_swap c_gas kappa y a ∈
      profitValues L_active v_swap c_gas kappa r y := ⟨a, ha1, ha2, rfl⟩
  have h1 := hub hmem
  have halpha : 0 < alpha L_active r := by unfold alpha; positivity
  have ha0 : 0 < a := lt_of_lt_of_le (by nlinarith) ha1
  have hfrac : 0 ≤ a / (L_active + a) := by positivity
  have h2 : profit L_active v_swap c_gas kappa y a -
      profit L_active v_swap c_gas kappa x a = (y - x) * (a / (L_active + a)) * v_swap := by
    unfold profit; ring
  have h3 : 0 ≤ (y - x) * (a / (L_active + a)) * v_swap := by
    apply mul_nonneg (mul_nonneg (by linarith) hfrac) hv.le
  rw [hEq]
  linarith

/-- One bisection step never moves `low` down nor `high` up. -/
lemma bisectStep_within (F : ℚ → ℚ) (s : ℚ × ℚ) (h : s.1 ≤ s.2) :
    s.1 ≤ (bisectStep F s).1 ∧ (bisectStep F s).2 ≤ s.2 := by
  unfold bisectStep
  by_cases hc : 0 < F ((s.1 + s.2) / 2)
  · rw [if_pos hc]
    exact ⟨by dsimp only; linarith, by dsimp only; linarith⟩
  · rw [if_neg hc]
    exact ⟨by dsimp only; linarith, by dsimp only; linarith⟩

/-- Lockstep comparison of two bisection runs: when positivity of the
first profit function implies positivity of the second, the two interval
states are either equal or the first lies entirely below the second. -/
lemma bisect_iterate_pair (F G : ℚ → ℚ)
    (himp : ∀ phi, 0 < F phi → 0 < G phi) (n : ℕ) :
    (bisectStep F)^[n] (0.0005, 0.1) = (bisectStep G)^[n] (0.0005, 0.1) ∨
    ((bisectStep F)^[n] (0.0005, 0.1)).2 ≤ ((bisectStep G)^[n] (0.0005, 0.1)).1 := by
  induction n with
  | zero => left; rfl
  | succ n ih =>
      have hbF := bisect_iterate_bounds F n
      have hbG := bisect_iterate_bounds G n
      rw [Function.iterate_succ_apply', Function.iterate_succ_apply']
      rcases ih with heq | hsep
      · set s := (bisectStep F)^[n] (0.0005, 0.1) with hs
        rw [← heq]
        by_cases hcF : 0 < F ((s.1 + s.2) / 2)
        · have hcG : 0 < G ((s.1 + s.2) / 2) := himp _ hcF
          left
          unfold bisectStep
          rw [if_pos hcF, if_pos hcG]
        · by_cases hcG : 0 < G ((s.1 + s.2) / 2)
          · right
            have h1 : bisectStep F s = (s.1, (s.1 + s.2) / 2) := by
              unfold bisectStep; rw [if_neg hcF]
            have h2 : bisectStep G s = ((s.1 + s.2) / 2, s.2) := by
              unfold bisectStep; rw [if_pos hcG]
            rw [h1, h2]
          · left
            unfold bisectStep
            rw [if_neg hcF, if_neg hcG]
      · right
        have h1 := (bisectStep_within F ((bisectStep F)^[n] (0.0005, 0.1)) hbF.2.1.le).2
        have h2 := (bisectStep_within G ((bisectStep G)^[n] (0.0005, 0.1)) hbG.2.1.le).1
        calc (bisectStep F ((bisectStep F)^[n] (0.0005, 0.1))).2
            ≤ ((bisectStep F)^[n] (0.0005, 0.1)).2 := h1
          _ ≤ ((bisectStep G)^[n] (0.0005, 0.1)).1 := hsep
          _ ≤ (bisectStep G ((bisectStep G)^[n] (0.0005, 0.1))).1 := h2

/-- The instrumented loop runs the plain loop on the state component and
adds the iteration count to the counter component. -/
lemma bisectStepCount_iterate (F : ℚ → ℚ) (n : ℕ) (s : (ℚ × ℚ) × ℕ) :
    (bisectStepCount F)^[n] s = ((bisectStep F)^[n] s.1, s.2 + n) := by
  induction n generalizing s with
  | zero => rfl
  | succ n ih =>
      rw [Function.iterate_succ_apply, Function.iterate_succ_apply, ih]
      unfold bisectStepCount
      dsimp only
      rw [Nat.add_assoc, Nat.add_comm 1 n]

/-- The spec's attainable-profit set coincides with the set assembled from
the code's `alpha`, `c_gas_eth` and `profit`: same window, same formula. -/
lemma specProfitValues_eq (L_active v_swap gas_price jit_gas_usage kappa ratio_bps phi : ℚ) :
    specProfitValues L_active v_swap gas_price jit_gas_usage kappa ratio_bps phi =
      profitValues L_active v_swap (c_gas_eth gas_price jit_gas_usage) kappa ratio_bps phi := by
  unfold specProfitValues profitValues alpha c_gas_eth WEI_PER_UNIT profit
  ext y
  simp only [Set.mem_setOf_eq]
  constructor
  · rintro ⟨a, h1, h2, rfl⟩
    exact ⟨a, by linarith, by linarith, by ring⟩
  · rintro ⟨a, h1, h2, rfl⟩
    exact ⟨a, by linarith, by linarith, by ring⟩

/- ------------------------------------------------------------------ -/
/- Claim theorems.                                                     -/
/- ------------------------------------------------------------------ -/

/-- C2: the critical-rate solver performs exactly the specified bisection:
`low, high` start at `0.0005, 0.1`; each of the 20 iterations computes
`mid = (low + high) / 2`, sets `low = mid` when `maxProfit(mid) > 0` and
`high = mid` otherwise; the final value of `high` is returned as `phi*`. -/
theorem C2_solver_is_spec_bisection (ms : MinimizeScalar)
    (ratio_bps L_active gas_price v_swap jit_gas_usage kappa : ℚ) :
    solve_phi_crit ms ratio_bps L_active gas_price v_swap jit_gas_usage kappa =
      bisectSpec (max_profit_for_phi ms L_active v_swap
        (c_gas_eth gas_price jit_gas_usage) kappa (alpha L_active ratio_bps))
        20 0.0005 0.1 := by
  unfold solve_phi_crit bisect
  exact bisect_iterate_eq_bisectSpec _ 20 _ _

/-- C4: for finite non-degenerate inputs (positive active liquidity and
ratio tier) the returned `phi*` lies in the closed interval
`[0.0005, 0.1]`. -/
theorem C4_phi_crit_bounded (ms : MinimizeScalar)
    (ratio_bps L_active gas_price v_swap jit_gas_usage kappa : ℚ)
    (hL : 0 < L_active) (hr : 0 < ratio_bps) :
    0.0005 ≤ solve_phi_crit ms ratio_bps L_active gas_price v_swap jit_gas_usage kappa ∧
      solve_phi_crit ms ratio_bps L_active gas_price v_swap jit_gas_usage kappa ≤ 0.1 := by
  have h := bisect_iterate_bounds (max_profit_for_phi ms L_active v_swap
    (c_gas_eth gas_price jit_gas_usage) kappa (alpha L_active ratio_bps)) 20
  unfold solve_phi_crit bisect
  constructor
  · rw [show (0.0005 : ℚ) = 1/2000 by norm_num]
    linarith [h.1, h.2.1]
  · rw [show (0.1 : ℚ) = 1/10 by norm_num]
    linarith [h.2.2]

/-- Witness for C4 at a concrete non-degenerate input. -/
theorem C4_phi_crit_bounded_witness :
    (0 : ℚ) < 1000000 ∧ (0 : ℚ) < 50 ∧
    (0.0005 ≤ solve_phi_crit msEval 50 1000000 30000000000 10 300000 (1/1000000) ∧
      solve_phi_crit msEval 50 1000000 30000000000 10 300000 (1/1000000) ≤ 0.1) :=
  ⟨by norm_num, by norm_num,
    C4_phi_crit_bounded msEval 50 1000000 30000000000 10 300000 (1/1000000)
      (by norm_num) (by norm_num)⟩

/-- C10: the returned `phi*` is strictly above the lower search bound
`0.0005` for every input: `high` is only ever assigned a midpoint strictly
above `low`, so the reachable output interval is `(0.0005, 0.1]`. -/
theorem C10_phi_crit_above_low (ms : MinimizeScalar)
    (ratio_bps L_active gas_price v_swap jit_gas_usage kappa : ℚ) :
    0.0005 < solve_phi_crit ms ratio_bps L_active gas_price v_swap jit_gas_usage kappa ∧
      solve_phi_crit ms ratio_bps L_active gas_price v_swap jit_gas_usage kappa ≤ 0.1 := by
  have h := bisect_iterate_bounds (max_profit_for_phi ms L_active v_swap
    (c_gas_eth gas_price jit_gas_usage) kappa (alpha L_active ratio_bps)) 20
  unfold solve_phi_crit bisect
  constructor
  · rw [show (0.0005 : ℚ) = 1/2000 by norm_num]
    linarith [h.1, h.2.1]
  · rw [show (0.1 : ℚ) = 1/10 by norm_num]
    linarith [h.2.2]

/-- C9: the outer search executes exactly 20 iterations, independent of
every input: the instrumented loop's counter is 20 for any profit model,
and its state agrees with the solver's result. -/
theorem C9_fixed_twenty_iterations (ms : MinimizeScalar)
    (ratio_bps L_active gas_price v_swap jit_gas_usage kappa : ℚ) :
    (bisectInstrumented (max_profit_for_phi ms L_active v_swap
      (c_gas_eth gas_price jit_gas_usage) kappa (alpha L_active ratio_bps))).2 = 20 ∧
    (bisectInstrumented (max_profit_for_phi ms L_active v_swap
      (c_gas_eth gas_price jit_gas_usage) kappa (alpha L_active ratio_bps))).1.2 =
      solve_phi_crit ms ratio_bps L_active gas_price v_swap jit_gas_usage kappa := by
  unfold bisectInstrumented solve_phi_crit bisect
  rw [bisectStepCount_iterate]
  exact ⟨rfl, rfl⟩

/-- C5: with zero active liquidity the cycle is skipped: no tier is
evaluated, no record is produced, no publication happens — and the outcome
does not depend on the solver model at all. -/
theorem C5_zero_liquidity_skips (ms ms2 : MinimizeScalar)
    (gas_price v_swap jit_gas_usage kappa : ℚ) (ratio_tiers : List ℚ) :
    sync_to_chain ms 0 gas_price v_swap jit_gas_usage kappa ratio_tiers = none ∧
    sync_to_chain ms 0 gas_price v_swap jit_gas_usage kappa ratio_tiers =
      sync_to_chain ms2 0 gas_price v_swap jit_gas_usage kappa ratio_tiers := by
  constructor <;> simp [sync_to_chain]

/-- C6: the solver is deterministic: equal input tuples give equal
outputs (the embedding has no hidden state and no randomness). -/
theorem C6_solver_deterministic (ms : MinimizeScalar)
    (r1 L1 g1 v1 u1 k1 r2 L2 g2 v2 u2 k2 : ℚ)
    (hr : r1 = r2) (hL : L1 = L2) (hg : g1 = g2) (hv : v1 = v2)
    (hu : u1 = u2) (hk : k1 = k2) :
    solve_phi_crit ms r1 L1 g1 v1 u1 k1 = solve_phi_crit ms r2 L2 g2 v2 u2 k2 := by
  rw [hr, hL, hg, hv, hu, hk]

/-- Witness for C6 at the spec's convergence-scenario inputs. -/
theorem C6_solver_deterministic_witness :
    solve_phi_crit msEval 50 1000000 30000000000 10 300000 (1/1000000) =
      solve_phi_crit msEval 50 1000000 30000000000 10 300000 (1/1000000) :=
  C6_solver_deterministic msEval 50 1000000 30000000000 10 300000 (1/1000000)
    50 1000000 30000000000 10 300000 (1/1000000) rfl rfl rfl rfl rfl rfl

/-- C7: tier aggregation is an independent map over the configured tiers:
one record per tier in configured order (duplicates preserved), and each
tier's record equals the record obtained by evaluating that tier alone
with the same pool state. -/
theorem C7_tier_aggregation_independent (ms : MinimizeScalar)
    (L_active gas_price v_swap jit_gas_usage kappa : ℚ) (ratio_tiers : List ℚ)
    (hL : L_active ≠ 0) :
    sync_to_chain ms L_active gas_price v_swap jit_gas_usage kappa ratio_tiers =
      some (ratio_tiers.map (tier_record ms L_active gas_price v_swap jit_gas_usage kappa)) ∧
    (∀ r ∈ ratio_tiers,
      sync_to_chain ms L_active gas_price v_swap jit_gas_usage kappa [r] =
        some [tier_record ms L_active gas_price v_swap jit_gas_usage kappa r]) ∧
    (ratio_tiers.map (tier_record ms L_active gas_price v_swap jit_gas_usage kappa)).length =
      ratio_tiers.length := by
  exact ⟨by simp [sync_to_chain, hL], fun r _ => by simp [sync_to_chain, hL], by simp⟩

/-- Witness for C7 on the tier list `[10, 50, 200]` of the spec. -/
theorem C7_tier_aggregation_independent_witness :
    ((1000000 : ℚ) ≠ 0) ∧
    (sync_to_chain msEval 1000000 30000000000 10 300000 (1/1000000) [10, 50, 200] =
      some ([10, 50, 200].map
        (tier_record msEval 1000000 30000000000 10 300000 (1/1000000))) ∧
    (∀ r ∈ [(10 : ℚ), 50, 200],
      sync_to_chain msEval 1000000 30000000000 10 300000 (1/1000000) [r] =
        some [tier_record msEval 1000000 30000000000 10 300000 (1/1000000) r]) ∧
    ([(10 : ℚ), 50, 200].map
      (tier_record msEval 1000000 30000000000 10 300000 (1/1000000))).length =
      [(10 : ℚ), 50, 200].length) :=
  ⟨by norm_num,
    C7_tier_aggregation_independent msEval 1000000 30000000000 10 300000 (1/1000000)
      [10, 50, 200] (by norm_num)⟩

/-- C8 counterexample: the claim fails as stated.  `cexModel` gives each
tier a max-profit function that is antitone in the fee rate, yet the
smaller tier 10 is profitable at every rate (its critical rate resolves to
`0.1`) while the larger tier 50 is profitable at none (its critical rate
resolves to the lower limit), so `phi*(10) > phi*(50)`. -/
theorem C8_counterexample_tier_order :
    Antitone (cexModel 10) ∧ Antitone (cexModel 50) ∧ (10 : ℚ) < 50 ∧
    ¬ (bisect (cexModel 10) ≤ bisect (cexModel 50)) := by
  have h10 : bisect (cexModel 10) = 1/10 :=
    bisect_all_up _ (fun x _ => by norm_num [cexModel])
  have h50 : bisect (cexModel 50) = 1048775/2097152000 :=
    bisect_all_down _ (fun x _ _ => by norm_num [cexModel])
  refine ⟨fun a b _ => by norm_num [cexModel], fun a b _ => by norm_num [cexModel],
    by norm_num, ?_⟩
  rw [h10, h50]
  norm_num

/-- C8 amended: with per-tier max-profit functions that are antitone in
the fee rate AND pointwise comparable — wherever the smaller tier's
maximal profit is positive, the larger tier's is too — the critical rates
satisfy `phi*(r1) ≤ phi*(r2)`. -/
theorem C8_monotone_in_tier_amended (F1 F2 : ℚ → ℚ)
    (h1 : Antitone F1) (h2 : Antitone F2)
    (hdom : ∀ phi, 0 < F1 phi → 0 < F2 phi) :
    bisect F1 ≤ bisect F2 := by
  rcases bisect_iterate_pair F1 F2 hdom 20 with heq | hsep
  · unfold bisect
    rw [heq]
  · have hb := bisect_iterate_bounds F2 20
    unfold bisect
    linarith [hsep, hb.2.1]

/-- Witness for the amended C8 at concrete antitone profit functions. -/
theorem C8_monotone_in_tier_amended_witness :
    Antitone (fun _ : ℚ => (-1 : ℚ)) ∧ Antitone (fun _ : ℚ => (1 : ℚ)) ∧
    (∀ phi : ℚ, 0 < (-1 : ℚ) → 0 < (1 : ℚ)) ∧
    bisect (fun _ : ℚ => (-1 : ℚ)) ≤ bisect (fun _ : ℚ => (1 : ℚ)) :=
  ⟨antitone_const, antitone_const, fun _ _ => by norm_num,
    C8_monotone_in_tier_amended _ _ antitone_const antitone_const
      (fun _ _ => by norm_num)⟩

/-- C3: the value the code computes for one fee rate — the negated
reported minimum of the negated profit over `(alpha*0.8, alpha*1.2)`,
with an exact inner minimizer — is precisely the maximum of the spec's
profit formula over the spec's window `[0.8*alpha, 1.2*alpha]`, with
`gasCostInValueUnits = gasPrice * gasUsagePerAttack / 1e18`. -/
theorem C3_inner_max_matches_spec (ms : MinimizeScalar)
    (L_active v_swap gas_price jit_gas_usage kappa ratio_bps phi : ℚ)
    (hms : IsLeast
      {y : ℚ | ∃ a, alpha L_active ratio_bps * 0.8 ≤ a ∧
          a ≤ alpha L_active ratio_bps * 1.2 ∧
          y = -(profit L_active v_swap (c_gas_eth gas_price jit_gas_usage) kappa phi a)}
      (ms (fun a => -(profit L_active v_swap (c_gas_eth gas_price jit_gas_usage) kappa phi a))
        (alpha L_active ratio_bps * 0.8) (alpha L_active ratio_bps * 1.2))) :
    IsGreatest (specProfitValues L_active v_swap gas_price jit_gas_usage kappa ratio_bps phi)
      (max_profit_for_phi ms L_active v_swap (c_gas_eth gas_price jit_gas_usage) kappa
        (alpha L_active ratio_bps) phi) := by
  obtain ⟨⟨a, h1, h2, hEq⟩, hlb⟩ := hms
  rw [specProfitValues_eq]
  constructor
  · refine ⟨a, h1, h2, ?_⟩
    unfold max_profit_for_phi
    rw [hEq, neg_neg]
  · rintro y ⟨a2, g1, g2, rfl⟩
    have hy := hlb ⟨a2, g1, g2, rfl⟩
    unfold max_profit_for_phi
    linarith

/-- C1: every record published by the aggregation step carries
`feePips = round(phi* * 1_000_000)` for the solver output `phi*` of its
tier, given non-degenerate pool state and an exact inner maximizer; and
the boundary rates `0.0005` and `0.1` map to `500` and `100000`. -/
theorem C1_published_feePips_equals_round (ms : MinimizeScalar)
    (L_active gas_price v_swap jit_gas_usage kappa : ℚ)
    (ratio_tiers : List ℚ) (recs : List FeeTier)
    (hL : 0 < L_active) (hv : 0 < v_swap)
    (htiers : ∀ r ∈ ratio_tiers, 0 < r)
    (hexact : ∀ r ∈ ratio_tiers, ∀ phi, 0 < phi →
      IsGreatest (profitValues L_active v_swap (c_gas_eth gas_price jit_gas_usage) kappa r phi)
        (max_profit_for_phi ms L_active v_swap (c_gas_eth gas_price jit_gas_usage) kappa
          (alpha L_active r) phi))
    (hsync : sync_to_chain ms L_active gas_price v_swap jit_gas_usage kappa ratio_tiers
      = some recs) :
    (∀ i (hi : i < recs.length) (hi2 : i < ratio_tiers.length),
      (recs.get ⟨i, hi⟩).feePips =
        round (solve_phi_crit ms (ratio_tiers.get ⟨i, hi2⟩) L_active gas_price v_swap
          jit_gas_usage kappa * 1000000)) ∧
    pyInt ((0.0005 : ℚ) * 1000000) = 500 ∧ round ((0.0005 : ℚ) * 1000000) = 500 ∧
    pyInt ((0.1 : ℚ) * 1000000) = 100000 ∧ round ((0.1 : ℚ) * 1000000) = 100000 := by
  refine ⟨?_, by norm_num [pyInt], by norm_num [round_eq],
    by norm_num [pyInt], by norm_num [round_eq]⟩
  intro i hi hi2
  rw [sync_to_chain, if_neg (ne_of_gt hL)] at hsync
  have hrecs := Option.some.inj hsync
  subst hrecs
  simp only [List.get_eq_getElem, List.getElem_map] at hi ⊢
  have hmem : ratio_tiers[i] ∈ ratio_tiers := List.getElem_mem _
  show (tier_record ms L_active gas_price v_swap jit_gas_usage kappa ratio_tiers[i]).feePips = _
  unfold tier_record solve_phi_crit
  exact pyInt_round_bisect _
    (max_profit_mono ms L_active v_swap (c_gas_eth gas_price jit_gas_usage) kappa
      ratio_tiers[i] hL (htiers _ hmem) hv (hexact _ hmem))

/-- The demo profit model used in witnesses (`L = 1`, `v_swap = 1`, zero
gas cost, `kappa = 0`, tier `10000`): over the window `[0.8, 1.2]` its
profit is non-decreasing in the attack size, so the window maximum sits at
the upper bound `alpha * 1.2`. -/
lemma demo_profit_le (phi a : ℚ) (hphi : 0 ≤ phi) (ha1 : 4/5 ≤ a) (ha2 : a ≤ 6/5) :
    profit 1 1 (c_gas_eth 0 0) 0 phi a ≤
      profit 1 1 (c_gas_eth 0 0) 0 phi (alpha 1 10000 * 1.2) := by
  unfold profit c_gas_eth WEI_PER_UNIT alpha
  have h1a : (0 : ℚ) < 1 + a := by linarith
  have key : a / (1 + a) ≤ (6/5) / (1 + 6/5) := by
    rw [div_le_div_iff₀ h1a (by norm_num)]
    nlinarith
  have harg : (1 : ℚ) * 10000 / 10000 * 1.2 = 6/5 := by norm_num
  rw [harg]
  nlinarith [mul_le_mul_of_nonneg_left key hphi]

/-- On the demo model, `msEval` is an exact inner maximizer at every
positive fee rate. -/
lemma demo_exact (phi : ℚ) (hphi : 0 < phi) :
    IsGreatest (profitValues 1 1 (c_gas_eth 0 0) 0 10000 phi)
      (max_profit_for_phi msEval 1 1 (c_gas_eth 0 0) 0 (alpha 1 10000) phi) := by
  constructor
  · refine ⟨alpha 1 10000 * 1.2, by norm_num [alpha], le_rfl, ?_⟩
    simp [max_profit_for_phi, msEval]
  · rintro y ⟨a, g1, g2, rfl⟩
    have hub : max_profit_for_phi msEval 1 1 (c_gas_eth 0 0) 0 (alpha 1 10000) phi
        = profit 1 1 (c_gas_eth 0 0) 0 phi (alpha 1 10000 * 1.2) := by
      simp [max_profit_for_phi, msEval]
    rw [hub]
    have e1 : alpha 1 10000 * 0.8 = 4/5 := by norm_num [alpha]
    have e2 : alpha 1 10000 * 1.2 = 6/5 := by norm_num [alpha]
    exact demo_profit_le phi a hphi.le (by linarith [e1 ▸ g1]) (by linarith [e2 ▸ g2])

/-- Witness for C1 on the demo model: the published record is
`(10000, 100000)` and its `feePips` equals the exact rounding of
`phi* * 1_000_000`. -/
theorem C1_published_feePips_equals_round_witness :
    sync_to_chain msEval 1 0 1 0 0 [10000] =
      some [{ thresholdRatioBps := 10000, feePips := 100000 }] ∧
    (∀ i (hi : i < [({ thresholdRatioBps := 10000, feePips := 100000 } : FeeTier)].length)
        (hi2 : i < [(10000 : ℚ)].length),
      (([({ thresholdRatioBps := 10000, feePips := 100000 } : FeeTier)]).get ⟨i, hi⟩).feePips =
        round (solve_phi_crit msEval (([(10000 : ℚ)]).get ⟨i, hi2⟩) 1 0 1 0 0 * 1000000)) := by
  have hF : ∀ x : ℚ, 201/4000 ≤ x →
      0 < max_profit_for_phi msEval 1 1 (c_gas_eth 0 0) 0 (alpha 1 10000) x := by
    intro x hx
    simp only [max_profit_for_phi, msEval, neg_neg]
    unfold profit c_gas_eth WEI_PER_UNIT alpha
    norm_num
    nlinarith
  have hsolve : solve_phi_crit msEval 10000 1 0 1 0 0 = 1/10 := by
    unfold solve_phi_crit
    exact bisect_all_up _ hF
  have hsync : sync_to_chain msEval 1 0 1 0 0 [10000] =
      some [{ thresholdRatioBps := 10000, feePips := 100000 }] := by
    rw [sync_to_chain, if_neg (by norm_num)]
    simp only [List.map_cons, List.map_nil]
    unfold tier_record
    rw [hsolve]
    norm_num [pyInt]
  have htiers : ∀ r ∈ [(10000 : ℚ)], 0 < r := by
    intro r hr
    rw [List.mem_singleton] at hr
    subst hr
    norm_num
  have hexact : ∀ r ∈ [(10000 : ℚ)], ∀ phi, 0 < phi →
      IsGreatest (profitValues 1 1 (c_gas_eth 0 0) 0 r phi)
        (max_profit_for_phi msEval 1 1 (c_gas_eth 0 0) 0 (alpha 1 r) phi) := by
    intro r hr
    rw [List.mem_singleton] at hr
    subst hr
    exact demo_exact
  exact ⟨hsync,
    (C1_published_feePips_equals_round msEval 1 0 1 0 0 [10000]
      [{ thresholdRatioBps := 10000, feePips := 100000 }]
      (by norm_num) (by norm_num) htiers hexact hsync).1⟩

/-- Witness for C3 on the demo model at fee rate 1. -/
theorem C3_inner_max_matches_spec_witness :
    IsLeast {y : ℚ | ∃ a, alpha 1 10000 * 0.8 ≤ a ∧ a ≤ alpha 1 10000 * 1.2 ∧
        y = -(profit 1 1 (c_gas_eth 0 0) 0 1 a)}
      (msEval (fun a => -(profit 1 1 (c_gas_eth 0 0) 0 1 a))
        (alpha 1 10000 * 0.8) (alpha 1 10000 * 1.2)) ∧
    IsGreatest (specProfitValues 1 1 0 0 0 10000 1)
      (max_profit_for_phi msEval 1 1 (c_gas_eth 0 0) 0 (alpha 1 10000) 1) := by
  have hms : IsLeast {y : ℚ | ∃ a, alpha 1 10000 * 0.8 ≤ a ∧ a ≤ alpha 1 10000 * 1.2 ∧
      y = -(profit 1 1 (c_gas_eth 0 0) 0 1 a)}
      (msEval (fun a => -(profit 1 1 (c_gas_eth 0 0) 0 1 a))
        (alpha 1 10000 * 0.8) (alpha 1 10000 * 1.2)) := by
    constructor
    · exact ⟨alpha 1 10000 * 1.2, by norm_num [alpha], le_rfl, by simp [msEval]⟩
    · rintro y ⟨a, g1, g2, rfl⟩
      simp only [msEval, neg_le_neg_iff]
      have e1 : alpha 1 10000 * 0.8 = 4/5 := by norm_num [alpha]
      have e2 : alpha 1 10000 * 1.2 = 6/5 := by norm_num [alpha]
      exact demo_profit_le 1 a (by norm_num) (by linarith [e1 ▸ g1]) (by linarith [e2 ▸ g2])
  exact ⟨hms, C3_inner_max_matches_spec msEval 1 1 0 0 0 10000 1 hms⟩
